import Mathlib

/-!
Shallow embedding of the Crucible constraint pipeline
(crucible-core, crucible-verification, crucible-codegen) and proofs of the
behavioural claims about it.

Conventions:
* Rust `String` is Lean `String`; machine integers become `Int`/`Nat` with
  explicit bounds where the source checks them (`str::parse::<i64>`).
* `std::collections::HashSet<String>` used by the SMT-LIB printer only for
  membership is modelled as a `List String` with `∈`.
* `std::collections::HashMap<String, DataType>` inside `Schema` is modelled
  as the association list the map yields when iterated; the iteration order
  of the Rust map is arbitrary, so every list stands for one possible
  iteration order.
* `Uuid::new_v4` is modelled by passing the fresh identifier in as a `Nat`
  argument.
* Fallible Rust functions returning `Result` become `Except`; functions that
  are declared fallible but always return `Ok` keep the `Except` type where
  a claim is about their error behaviour.
-/

namespace Crucible

/-- `ConstraintOperator` from crucible-core. -/
inductive ConstraintOperator where
  | greaterThanOrEqual
  | lessThanOrEqual
  | greaterThan
  | lessThan
  | equal
  | notEqual
deriving DecidableEq

/-- `Constraint` from crucible-core: `left_variable operator right_value`. -/
structure Constraint where
  left_variable : String
  operator : ConstraintOperator
  right_value : String
deriving DecidableEq

/-- `impl From<&str> for Constraint` from crucible-core. -/
def constraintFromStr (s : String) : Constraint :=
  { left_variable := s
    operator := ConstraintOperator.greaterThanOrEqual
    right_value := "0" }

/-- `impl From<String> for Constraint` from crucible-core. -/
def constraintFromString (s : String) : Constraint :=
  { left_variable := s
    operator := ConstraintOperator.greaterThanOrEqual
    right_value := "0" }

/-- `CompoundConstraint` from crucible-core: an AND/OR/NOT tree over
simple constraints. -/
inductive CompoundConstraint where
  | and (cs : List CompoundConstraint)
  | or (cs : List CompoundConstraint)
  | not (c : CompoundConstraint)
  | simple (c : Constraint)

mutual

/-- `CompoundConstraint::count_constraints` from crucible-core:
And/Or sum their children, Not passes through, Simple counts 1. -/
def CompoundConstraint.count_constraints : CompoundConstraint → Nat
  | .and cs => countConstraintsList cs
  | .or cs => countConstraintsList cs
  | .not c => c.count_constraints
  | .simple _ => 1

/-- The `iter().map(..).sum()` over a child list in `count_constraints`. -/
def countConstraintsList : List CompoundConstraint → Nat
  | [] => 0
  | c :: rest => c.count_constraints + countConstraintsList rest

end

mutual

/-- The `Simple` leaves of a tree in left-to-right (post-order) order. -/
def postorderSimples : CompoundConstraint → List Constraint
  | .and cs => postorderSimplesList cs
  | .or cs => postorderSimplesList cs
  | .not c => postorderSimples c
  | .simple c => [c]

/-- Post-order `Simple` leaves of a list of sibling trees. -/
def postorderSimplesList : List CompoundConstraint → List Constraint
  | [] => []
  | c :: rest => postorderSimples c ++ postorderSimplesList rest

end

/-- `Requirement` from crucible-core (the 128-bit uuid is modelled as a
`Nat` chosen by the caller of the constructor). -/
structure Requirement where
  id : Nat
  content : String
  verified : Bool
  constraints : List Constraint

/-- `IntentAst` from crucible-core.  `correctness_score` is an `f64` in the
source; it is modelled as a rational.  On every state reachable through the
public constructors the verified count is `0`, so the source's double
computation `(0 as f64 / n as f64) * 100.0` is exact and agrees with the
rational value. -/
structure IntentAst where
  id : Nat
  requirements : List Requirement
  correctness_score : ℚ

/-- `IntentAst::new` (the uuid is passed in). -/
def IntentAst.new (id : Nat) : IntentAst :=
  { id := id, requirements := [], correctness_score := 0 }

/-- `IntentAst::update_score`: score `0` on an empty list (the early
return), otherwise the verified count over the total, times `100`. -/
def IntentAst.update_score (a : IntentAst) : IntentAst :=
  { a with
      correctness_score :=
        if a.requirements.isEmpty then 0
        else
          (((a.requirements.filter (fun r => r.verified)).length : ℚ) /
            (a.requirements.length : ℚ)) * 100 }

/-- `IntentAst::add_requirement` (the fresh uuid is passed in). -/
def IntentAst.add_requirement (a : IntentAst) (reqId : Nat) (content : String) :
    IntentAst :=
  IntentAst.update_score
    { a with
        requirements :=
          a.requirements ++
            [{ id := reqId, content := content, verified := false,
               constraints := [] }] }

/-- The states of `IntentAst` reachable through the public constructors:
`new` followed by any sequence of `add_requirement` calls. -/
inductive ReachableAst : IntentAst → Prop where
  | new (id : Nat) : ReachableAst (IntentAst.new id)
  | add (a : IntentAst) (reqId : Nat) (content : String) :
      ReachableAst a → ReachableAst (a.add_requirement reqId content)

/-! ## crucible-verification: Z3 translation and SMT-LIB printing -/

/-- Value of a run of decimal digit characters, `none` when the run is empty
or holds a non-digit (Rust's digit loop in integer `from_str`). -/
def decDigitsVal? (l : List Char) : Option Nat :=
  if l.isEmpty then none
  else if l.all (fun c => c.isDigit) then
    some (l.foldl (fun acc c => acc * 10 + (c.toNat - 48)) 0)
  else none

/-- Rust `str::parse::<i64>()`: optional `+`/`-` sign, then a non-empty run
of decimal digits, rejected outside the signed 64-bit range. -/
def parseI64 (s : String) : Option Int :=
  match s.data with
  | [] => none
  | c :: rest =>
    if c = '+' then
      (decDigitsVal? rest).bind fun n =>
        if n ≤ 9223372036854775807 then some (n : Int) else none
    else if c = '-' then
      (decDigitsVal? rest).bind fun n =>
        if n ≤ 9223372036854775808 then some (-(n : Int)) else none
    else
      (decDigitsVal? (c :: rest)).bind fun n =>
        if n ≤ 9223372036854775807 then some (n : Int) else none

/-- A Z3 integer term as built by the verifier: an integer constant
(`z3::ast::Int::from_i64`) or a named integer symbol (`Int::new_const`). -/
inductive SmtInt where
  | lit (n : Int)
  | var (name : String)
deriving DecidableEq

/-- A Z3 boolean term as built by the verifier. -/
inductive SmtBool where
  | ge (l r : SmtInt)
  | le (l r : SmtInt)
  | gt (l r : SmtInt)
  | lt (l r : SmtInt)
  | eq (l r : SmtInt)
  | not (b : SmtBool)
  | and (a b : SmtBool)
  | or (a b : SmtBool)
  | tru
  | fls
deriving DecidableEq

/-- `VerificationError` from crucible-verification. -/
inductive VerificationError where
  | solverError (msg : String)
  | translationError (msg : String)
  | unsatisfiable (msg : String)
  | unknownConstraintType
deriving DecidableEq

/-- `Z3Verifier::parse_right_value`: integer literal when the string parses
as `i64`, otherwise an integer symbol of that name.  (The Rust `var_map`
caching only shares Z3 object handles; symbols are identified by name.) -/
def parse_right_value (right_value : String) : SmtInt :=
  match parseI64 right_value with
  | some n => SmtInt.lit n
  | none => SmtInt.var right_value

/-- `Z3Verifier::translate_constraint`.  The Rust function returns
`VerificationResult` but every branch returns `Ok`; the formula it wraps is
modelled directly. -/
def translate_constraint (c : Constraint) : SmtBool :=
  let left := SmtInt.var c.left_variable
  let right := parse_right_value c.right_value
  match c.operator with
  | .greaterThanOrEqual => SmtBool.ge left right
  | .lessThanOrEqual => SmtBool.le left right
  | .greaterThan => SmtBool.gt left right
  | .lessThan => SmtBool.lt left right
  | .equal => SmtBool.eq left right
  | .notEqual => SmtBool.not (SmtBool.eq left right)

mutual

/-- `Z3Verifier::translate_compound`: And/Or fold their translated children
with the binary connective starting from the first child, defaulting to
`true`/`false` on an empty list (`unwrap_or_else`); Not negates; Simple
defers to `translate_constraint` (always `Ok`). -/
def translate_compound : CompoundConstraint → Except VerificationError SmtBool
  | .and cs =>
    match translateCompoundList cs with
    | .error e => .error e
    | .ok fs =>
      match fs with
      | [] => .ok SmtBool.tru
      | f :: rest => .ok (rest.foldl SmtBool.and f)
  | .or cs =>
    match translateCompoundList cs with
    | .error e => .error e
    | .ok fs =>
      match fs with
      | [] => .ok SmtBool.fls
      | f :: rest => .ok (rest.foldl SmtBool.or f)
  | .not c =>
    match translate_compound c with
    | .error e => .error e
    | .ok f => .ok (SmtBool.not f)
  | .simple c => .ok (translate_constraint c)

/-- The `collect::<Result<Vec<_>, _>>()` over children in
`translate_compound`: first error wins. -/
def translateCompoundList :
    List CompoundConstraint → Except VerificationError (List SmtBool)
  | [] => .ok []
  | c :: rest =>
    match translate_compound c with
    | .error e => .error e
    | .ok f =>
      match translateCompoundList rest with
      | .error e => .error e
      | .ok fs => .ok (f :: fs)

end

/-- Integer semantics of a Z3 integer term under an assignment. -/
def SmtInt.eval (env : String → Int) : SmtInt → Int
  | .lit n => n
  | .var v => env v

/-- Integer semantics of a Z3 boolean term under an assignment. -/
def SmtBool.eval (env : String → Int) : SmtBool → Bool
  | .ge l r => decide (SmtInt.eval env l ≥ SmtInt.eval env r)
  | .le l r => decide (SmtInt.eval env l ≤ SmtInt.eval env r)
  | .gt l r => decide (SmtInt.eval env l > SmtInt.eval env r)
  | .lt l r => decide (SmtInt.eval env l < SmtInt.eval env r)
  | .eq l r => decide (SmtInt.eval env l = SmtInt.eval env r)
  | .not b => !(SmtBool.eval env b)
  | .and a b => SmtBool.eval env a && SmtBool.eval env b
  | .or a b => SmtBool.eval env a || SmtBool.eval env b
  | .tru => true
  | .fls => false

/-- The operator dual named by the spec: swaps `<` with `≥`, `>` with `≤`,
and `=` with `≠`. -/
def dual : ConstraintOperator → ConstraintOperator
  | .lessThan => .greaterThanOrEqual
  | .greaterThanOrEqual => .lessThan
  | .greaterThan => .lessThanOrEqual
  | .lessThanOrEqual => .greaterThan
  | .equal => .notEqual
  | .notEqual => .equal

/-! ### SMT-LIB diagnostic printer

Each constructor of `SmtCmd` stands for one piece of text pushed onto the
output string by `generate_smt_lib` / `append_constraint_smt`; the source's
three-line header and three-line footer are split at their newlines. -/

/-- One emitted SMT-LIB line (`blank` is a bare newline). -/
inductive SmtCmd where
  | setLogic
  | setOption
  | blank
  | declareConst (v : String)
  | assertCmd (op : String) (l : String) (r : String)
  | checkSat
  | getModel
deriving DecidableEq

/-- The operator spelling table in `append_constraint_smt`. -/
def smt_op_str : ConstraintOperator → String
  | .greaterThanOrEqual => ">="
  | .lessThanOrEqual => "<="
  | .greaterThan => ">"
  | .lessThan => "<"
  | .equal => "="
  | .notEqual => "distinct"

/-- First half of `append_constraint_smt`: declare the left variable when
the `HashSet` insert reports it new (the set is modelled as a list). -/
def declare_left (c : Constraint) (declared : List String) :
    List SmtCmd × List String :=
  if c.left_variable ∈ declared then ([], declared)
  else ([SmtCmd.declareConst c.left_variable], c.left_variable :: declared)

/-- Second half of `append_constraint_smt`: declare the right value when it
does not parse as `i64` and is not yet declared. -/
def declare_right (c : Constraint) (declared : List String) :
    List SmtCmd × List String :=
  if (parseI64 c.right_value).isNone then
    if c.right_value ∈ declared then ([], declared)
    else ([SmtCmd.declareConst c.right_value], c.right_value :: declared)
  else ([], declared)

/-- `Z3Verifier::append_constraint_smt`: declare the left variable if not
yet declared, declare the right value if it does not parse as `i64` and is
not yet declared, then emit the assert.  The pair returns the emitted
lines and the updated set of declared names. -/
def append_constraint_smt (c : Constraint) (declared : List String) :
    List SmtCmd × List String :=
  let step1 := declare_left c declared
  let step2 := declare_right c step1.2
  (step1.1 ++ step2.1 ++
      [SmtCmd.assertCmd (smt_op_str c.operator) c.left_variable c.right_value],
    step2.2)

/-- The loop of `generate_smt_lib` over the constraint slice, threading the
set of declared names. -/
def smtBodyCmds : List Constraint → List String → List SmtCmd
  | [], _ => []
  | c :: rest, declared =>
    let step := append_constraint_smt c declared
    step.1 ++ smtBodyCmds rest step.2

/-- `Z3Verifier::generate_smt_lib` as the list of emitted lines: header,
one pass over the constraints, footer. -/
def generate_smt_cmds (cs : List Constraint) : List SmtCmd :=
  [SmtCmd.setLogic, SmtCmd.setOption, SmtCmd.blank] ++
    smtBodyCmds cs [] ++
    [SmtCmd.blank, SmtCmd.checkSat, SmtCmd.getModel]

/-- Text of one emitted line (matching the `format!` strings). -/
def renderCmd : SmtCmd → String
  | .setLogic => "(set-logic QF_LIA)\n"
  | .setOption => "(set-option :produce-models true)\n"
  | .blank => "\n"
  | .declareConst v => "(declare-const " ++ v ++ " Int)\n"
  | .assertCmd op l r => "(assert (" ++ op ++ " " ++ l ++ " " ++ r ++ "))\n"
  | .checkSat => "(check-sat)\n"
  | .getModel => "(get-model)\n"

/-- Concatenation of rendered lines, in order. -/
def renderCmds : List SmtCmd → String
  | [] => ""
  | c :: rest => renderCmd c ++ renderCmds rest

/-- `Z3Verifier::generate_smt_lib` as the final string. -/
def generate_smt_lib (cs : List Constraint) : String :=
  renderCmds (generate_smt_cmds cs)

/-- The distinct names the spec expects a `declare-const` for: every
`left_variable`, and every `right_value` that does not parse as a signed
64-bit decimal integer literal. -/
def NeedsDecl (cs : List Constraint) (v : String) : Prop :=
  (∃ c ∈ cs, v = c.left_variable) ∨
    ((parseI64 v).isNone = true ∧ ∃ c ∈ cs, v = c.right_value)

instance (cs : List Constraint) (v : String) : Decidable (NeedsDecl cs v) := by
  unfold NeedsDecl; infer_instance

/-- Number of occurrences of one line among the emitted lines. -/
def cmdCount (cmds : List SmtCmd) (target : SmtCmd) : Nat :=
  (cmds.filter (fun cmd => cmd = target)).length

/-- Number of `declare-const` lines for the name `v`. -/
def declCount (cmds : List SmtCmd) (v : String) : Nat :=
  cmdCount cmds (SmtCmd.declareConst v)

/-- The assert lines, in order, as (operator, left, right) triples. -/
def assertsOf (cmds : List SmtCmd) : List (String × String × String) :=
  cmds.filterMap fun cmd =>
    match cmd with
    | SmtCmd.assertCmd op l r => some (op, l, r)
    | _ => none

/-- True when the emitted line is an assert. -/
def SmtCmd.isAssertLine : SmtCmd → Bool
  | .assertCmd _ _ _ => true
  | _ => false

/-- True when the emitted line is a declare-const. -/
def SmtCmd.isDeclLine : SmtCmd → Bool
  | .declareConst _ => true
  | _ => false

/-- The grouped layout named by the claim: every declare-const line comes
before every assert line (no declaration occurs at or after the first
assert). -/
def declsPrecedeAsserts (cmds : List SmtCmd) : Bool :=
  ((cmds.dropWhile fun cmd => !(SmtCmd.isAssertLine cmd)).filter
      fun cmd => SmtCmd.isDeclLine cmd).isEmpty

/-! ## crucible-codegen: multi-target emission

Literal braces in emitted text are written with the escapes x7b / x7d and
apostrophes with x27. -/

/-- DataType from crucible-core. -/
inductive DataType where
  | uint64
  | uint32
  | int64
  | int32
  | string
  | bool
  | decimal
  | custom (name : String) (range_min range_max : Option Int)
deriving DecidableEq

/-- Schema from crucible-core.  The Rust `fields` is a
`std::collections::HashMap`; it is modelled as the association list the map
yields when iterated, so a `Schema` value fixes one possible iteration
order.  The map itself does not record insertion order. -/
structure Schema where
  fields : List (String × DataType)
  documentation : List (String × String)
  traceability_id : String

/-- TargetLanguage from crucible-codegen. -/
inductive TargetLanguage where
  | rust
  | typeScript
  | python
  | solidity
  | sparkAda
  | zig
  | elixir
deriving DecidableEq

/-- CodegenOutput from crucible-codegen. -/
structure CodegenOutput where
  language : TargetLanguage
  code : String
  constraints_count : Nat

/-- Rust `str::split(sep)` at the character level: maximal runs between
separators, with empty runs kept (so a leading, trailing or doubled
separator yields an empty segment, and the empty string yields one empty
segment). -/
def splitChars (sep : Char) : List Char → List (List Char)
  | [] => [[]]
  | c :: rest =>
    if c = sep then [] :: splitChars sep rest
    else
      match splitChars sep rest with
      | [] => [[c]]
      | w :: ws => (c :: w) :: ws

/-- The underscore-separated segments of a name, as strings. -/
def splitUnderscores (s : String) : List String :=
  (splitChars '_' s.data).map String.mk

/-- Per-segment step of `to_ada_case`: empty segment stays empty, otherwise
the first character is upper-cased and the rest kept.  Rust uses
`char::to_uppercase`, which agrees with `Char.toUpper` on ASCII input
(snake_case names). -/
def capitalizeWord (w : String) : String :=
  match w.data with
  | [] => ""
  | c :: rest => String.mk (c.toUpper :: rest)

/-- Rust `to_ada_case` from crucible-codegen: split on underscores,
upper-case the first character of each segment, re-join with
underscores. -/
def to_ada_case (name : String) : String :=
  String.intercalate "_" ((splitUnderscores name).map capitalizeWord)

/-- The seven `CodegenStrategy::format_operator` tables. -/
def format_operator : TargetLanguage → ConstraintOperator → String
  | .rust, .greaterThanOrEqual => ">="
  | .rust, .lessThanOrEqual => "<="
  | .rust, .greaterThan => ">"
  | .rust, .lessThan => "<"
  | .rust, .equal => "=="
  | .rust, .notEqual => "!="
  | .typeScript, .greaterThanOrEqual => ">="
  | .typeScript, .lessThanOrEqual => "<="
  | .typeScript, .greaterThan => ">"
  | .typeScript, .lessThan => "<"
  | .typeScript, .equal => "==="
  | .typeScript, .notEqual => "!=="
  | .python, .greaterThanOrEqual => ">="
  | .python, .lessThanOrEqual => "<="
  | .python, .greaterThan => ">"
  | .python, .lessThan => "<"
  | .python, .equal => "=="
  | .python, .notEqual => "!="
  | .solidity, .greaterThanOrEqual => ">="
  | .solidity, .lessThanOrEqual => "<="
  | .solidity, .greaterThan => ">"
  | .solidity, .lessThan => "<"
  | .solidity, .equal => "=="
  | .solidity, .notEqual => "!="
  | .sparkAda, .greaterThanOrEqual => ">="
  | .sparkAda, .lessThanOrEqual => "<="
  | .sparkAda, .greaterThan => ">"
  | .sparkAda, .lessThan => "<"
  | .sparkAda, .equal => "="
  | .sparkAda, .notEqual => "/="
  | .zig, .greaterThanOrEqual => ">="
  | .zig, .lessThanOrEqual => "<="
  | .zig, .greaterThan => ">"
  | .zig, .lessThan => "<"
  | .zig, .equal => "=="
  | .zig, .notEqual => "!="
  | .elixir, .greaterThanOrEqual => ">="
  | .elixir, .lessThanOrEqual => "<="
  | .elixir, .greaterThan => ">"
  | .elixir, .lessThan => "<"
  | .elixir, .equal => "=="
  | .elixir, .notEqual => "!="

/-- The seven `CodegenStrategy::format_variable` implementations. -/
def format_variable : TargetLanguage → String → String
  | .rust, name => "params." ++ name
  | .typeScript, name => "params." ++ name
  | .python, name => "params[\x27" ++ name ++ "\x27]"
  | .solidity, name => "params." ++ name
  | .sparkAda, name => "Params." ++ to_ada_case name
  | .zig, name => "params." ++ name
  | .elixir, name => "params[:" ++ name ++ "]"

/-- The seven `CodegenStrategy::logical_and` connectives. -/
def logical_and : TargetLanguage → String
  | .rust => "&&"
  | .typeScript => "&&"
  | .python => "and"
  | .solidity => "&&"
  | .sparkAda => "and then"
  | .zig => "and"
  | .elixir => "and"

/-- The seven `CodegenStrategy::logical_or` connectives. -/
def logical_or : TargetLanguage → String
  | .rust => "||"
  | .typeScript => "||"
  | .python => "or"
  | .solidity => "||"
  | .sparkAda => "or else"
  | .zig => "or"
  | .elixir => "or"

/-- The seven `CodegenStrategy::logical_not` wrappers. -/
def logical_not : TargetLanguage → String → String
  | .rust, expr => "!(" ++ expr ++ ")"
  | .typeScript, expr => "!(" ++ expr ++ ")"
  | .python, expr => "not (" ++ expr ++ ")"
  | .solidity, expr => "!(" ++ expr ++ ")"
  | .sparkAda, expr => "not (" ++ expr ++ ")"
  | .zig, expr => "!(" ++ expr ++ ")"
  | .elixir, expr => "not (" ++ expr ++ ")"

/-- `CodegenStrategy::wrap_assertion`: TypeScript and Python keep the trait
default `assert({});`, the rest override it. -/
def wrap_assertion : TargetLanguage → String → String
  | .rust, cond => "debug_assert!(" ++ cond ++ ");"
  | .typeScript, cond => "assert(" ++ cond ++ ");"
  | .python, cond => "assert(" ++ cond ++ ");"
  | .solidity, cond => "require(" ++ cond ++ ");"
  | .sparkAda, cond => "pragma Assert (" ++ cond ++ ");"
  | .zig, cond => "std.debug.assert(" ++ cond ++ ");"
  | .elixir, cond => "assert " ++ cond

/-- The seven `VerifiableStrategy::map_type` tables. -/
def map_type : TargetLanguage → DataType → String
  | .rust, .uint64 => "u64"
  | .rust, .uint32 => "u32"
  | .rust, .int64 => "i64"
  | .rust, .int32 => "i32"
  | .rust, .string => "String"
  | .rust, .bool => "bool"
  | .rust, .decimal => "f64"
  | .rust, .custom name _ _ => name
  | .typeScript, .uint64 => "number"
  | .typeScript, .uint32 => "number"
  | .typeScript, .int64 => "number"
  | .typeScript, .int32 => "number"
  | .typeScript, .string => "string"
  | .typeScript, .bool => "boolean"
  | .typeScript, .decimal => "number"
  | .typeScript, .custom name _ _ => name
  | .python, .uint64 => "int"
  | .python, .uint32 => "int"
  | .python, .int64 => "int"
  | .python, .int32 => "int"
  | .python, .string => "str"
  | .python, .bool => "bool"
  | .python, .decimal => "Decimal"
  | .python, .custom name _ _ => name
  | .solidity, .uint64 => "uint256"
  | .solidity, .uint32 => "uint32"
  | .solidity, .int64 => "int256"
  | .solidity, .int32 => "int32"
  | .solidity, .string => "string"
  | .solidity, .bool => "bool"
  | .solidity, .decimal => "int256"
  | .solidity, .custom name _ _ => name
  | .sparkAda, .uint64 => "Natural"
  | .sparkAda, .uint32 => "Natural"
  | .sparkAda, .int64 => "Integer"
  | .sparkAda, .int32 => "Integer"
  | .sparkAda, .string => "String"
  | .sparkAda, .bool => "Boolean"
  | .sparkAda, .decimal => "Long_Float"
  | .sparkAda, .custom name _ _ => name
  | .zig, .uint64 => "u64"
  | .zig, .uint32 => "u32"
  | .zig, .int64 => "i64"
  | .zig, .int32 => "i32"
  | .zig, .string => "[]const u8"
  | .zig, .bool => "bool"
  | .zig, .decimal => "f64"
  | .zig, .custom name _ _ => name
  | .elixir, .uint64 => "integer()"
  | .elixir, .uint32 => "integer()"
  | .elixir, .int64 => "integer()"
  | .elixir, .int32 => "integer()"
  | .elixir, .string => "String.t()"
  | .elixir, .bool => "boolean()"
  | .elixir, .decimal => "Decimal.t()"
  | .elixir, .custom name _ _ => name

mutual

/-- `CodeGenerator::build_expression`: Simple renders the leaf, And/Or join
the rendered children with the connective inside parentheses, Not wraps in
`logical_not`. -/
def build_expression (lang : TargetLanguage) : CompoundConstraint → String
  | .simple c =>
    format_variable lang c.left_variable ++ " " ++
      format_operator lang c.operator ++ " " ++ c.right_value
  | .and cs =>
    "(" ++
      String.intercalate (" " ++ logical_and lang ++ " ")
        (buildExpressionList lang cs) ++ ")"
  | .or cs =>
    "(" ++
      String.intercalate (" " ++ logical_or lang ++ " ")
        (buildExpressionList lang cs) ++ ")"
  | .not inner => logical_not lang (build_expression lang inner)

/-- The `iter().map(..).collect()` over children in `build_expression`. -/
def buildExpressionList (lang : TargetLanguage) :
    List CompoundConstraint → List String
  | [] => []
  | c :: rest => build_expression lang c :: buildExpressionList lang rest

end

mutual

/-- `collect_assertions` from crucible-codegen: one `wrap_assertion` per
Simple leaf, And/Or visit children left-to-right, Not passes through
without negating. -/
def collect_assertions (lang : TargetLanguage) : CompoundConstraint → List String
  | .simple c =>
    [wrap_assertion lang
        (format_variable lang c.left_variable ++ " " ++
          format_operator lang c.operator ++ " " ++ c.right_value)]
  | .and cs => collectAssertionsList lang cs
  | .or cs => collectAssertionsList lang cs
  | .not inner => collect_assertions lang inner

/-- The child loop in `collect_assertions`. -/
def collectAssertionsList (lang : TargetLanguage) :
    List CompoundConstraint → List String
  | [] => []
  | c :: rest => collect_assertions lang c ++ collectAssertionsList lang rest

end

/-- `build_assertions` from crucible-codegen. -/
def build_assertions (lang : TargetLanguage) (compound : CompoundConstraint) :
    String :=
  String.intercalate "\n    " (collect_assertions lang compound)

mutual

/-- `SparkAdaStrategy::collect_preconditions`: Simple leaves and leaves
under the root And chain become precondition clauses; Or/Not subtrees are
skipped. -/
def collect_preconditions : CompoundConstraint → List String
  | .simple c =>
    [format_variable .sparkAda c.left_variable ++ " " ++
      format_operator .sparkAda c.operator ++ " " ++ c.right_value]
  | .and cs => collectPreconditionsList cs
  | .or _ => []
  | .not _ => []

/-- The child loop in `collect_preconditions`. -/
def collectPreconditionsList : List CompoundConstraint → List String
  | [] => []
  | c :: rest => collect_preconditions c ++ collectPreconditionsList rest

end

mutual

/-- `SparkAdaStrategy::build_expression_body`. -/
def build_expression_body : CompoundConstraint → String
  | .simple c =>
    format_variable .sparkAda c.left_variable ++ " " ++
      format_operator .sparkAda c.operator ++ " " ++ c.right_value
  | .and cs =>
    "(" ++ String.intercalate " and then " (buildExpressionBodyList cs) ++ ")"
  | .or cs =>
    "(" ++ String.intercalate " or else " (buildExpressionBodyList cs) ++ ")"
  | .not inner => logical_not .sparkAda (build_expression_body inner)

/-- The child loop in `build_expression_body`. -/
def buildExpressionBodyList : List CompoundConstraint → List String
  | [] => []
  | c :: rest => build_expression_body c :: buildExpressionBodyList rest

end

/-- `SparkAdaStrategy::build_postcondition`. -/
def build_postcondition (compound : CompoundConstraint) : Option String :=
  some ("Post => (validate_intent\x27Result = " ++
    build_expression_body compound ++ ")")

/-- `SparkAdaStrategy::emit_contracts`: precondition clauses then the
postcondition, comma-separated, under a `with` line. -/
def emit_contracts_spark (compound : CompoundConstraint) : Option String :=
  let pres := collect_preconditions compound
  let post := build_postcondition compound
  if pres.isEmpty && post.isNone then none
  else
    some ("   with\n" ++
      String.intercalate ",\n"
        ((pres ++ post.toList).map (fun s => "        " ++ s)))

/-- The seven `VerifiableStrategy::build_signature` implementations, over
the iteration order recorded in `Schema.fields`. -/
def build_signature : TargetLanguage → String → Schema → String
  | .rust, _, schema =>
    let fields := schema.fields.map fun f =>
      "pub " ++ f.1 ++ ": " ++ map_type .rust f.2
    let fields_str :=
      if fields.isEmpty then ""
      else "\n    " ++ String.intercalate ",\n    " fields
    "pub struct ValidationParams \x7b " ++ fields_str ++ "\x7d"
  | .typeScript, func_name, schema =>
    let fields := schema.fields.map fun f =>
      f.1 ++ ": " ++ map_type .typeScript f.2
    let fields_str :=
      if fields.isEmpty then "\x7b \x7d"
      else "\x7b " ++ String.intercalate "; " fields ++ " \x7d"
    "export interface " ++ func_name ++ "_Params " ++ fields_str
  | .python, func_name, schema =>
    let fields := schema.fields.map fun f =>
      f.1 ++ ": " ++ map_type .python f.2
    let fields_str :=
      if fields.isEmpty then "pass  # Define your validation parameters here"
      else "\n    " ++ String.intercalate "\n    " fields
    "@dataclass\nclass " ++ func_name ++ "_Params:\n" ++ fields_str
  | .solidity, func_name, schema =>
    let fields := schema.fields.map fun f =>
      map_type .solidity f.2 ++ " " ++ f.1
    let fields_str :=
      if fields.isEmpty then ""
      else " (" ++ String.intercalate ", " fields ++ ")"
    "function " ++ func_name ++ fields_str
  | .sparkAda, func_name, schema =>
    let params := schema.fields.map fun f =>
      to_ada_case f.1 ++ " : " ++ map_type .sparkAda f.2
    let params_str :=
      if params.isEmpty then ""
      else " (" ++ String.intercalate "; " params ++ ")"
    "function " ++ func_name ++ params_str ++ " return Boolean"
  | .zig, func_name, schema =>
    let fields := schema.fields.map fun f =>
      f.1 ++ ": " ++ map_type .zig f.2
    let fields_str :=
      if fields.isEmpty then "\x7b\x7d"
      else "\x7b " ++ String.intercalate ", " fields ++ " \x7d"
    "pub fn " ++ func_name ++ "(params: " ++ fields_str ++ ")"
  | .elixir, func_name, schema =>
    let fields := schema.fields.map fun f =>
      f.1 ++ ": " ++ map_type .elixir f.2
    "@spec " ++ func_name ++ "_params() :: map()\n  def " ++ func_name ++
      "_params(), do: %\x7b" ++ String.intercalate ", " fields ++ "\x7d"

/-- The seven `VerifiableStrategy::license_header` templates; every one
interpolates the traceability id after a `Traceability ID: ` marker. -/
def license_header : TargetLanguage → String → String
  | .rust, tid =>
    "//! Rust Generated Code - Memory Safe with Formal Verification (v0.1.5-alpha)\n//! Use with Kani for bounded model checking\n//! Patent Application: 63/928,407\n//! Traceability ID: "
      ++ tid ++ "\n//! Correct by Design, Verified by Construction\n\n"
  | .typeScript, tid =>
    "// TypeScript Generated Code (v0.1.5-alpha)\n// Use with ts-auto-guard for runtime type checking\n// Patent Application: 63/928,407\n// Traceability ID: "
      ++ tid ++ "\n// Correct by Design, Verified by Construction\n\n"
  | .python, tid =>
    "# Python Generated Code (v0.1.5-alpha)\n# Use with hypothesis for property-based testing\n# Patent Application: 63/928,407\n# Traceability ID: "
      ++ tid ++ "\n# Correct by Design, Verified by Construction\n\n"
  | .solidity, tid =>
    "// SPDX-License-Identifier: MIT\n// Solidity Generated Code - Smart Contract Verification (v0.1.5-alpha)\n// Use with Slither for security analysis, Echidna for property testing\n// Patent Application: 63/928,407\n// Traceability ID: "
      ++ tid ++ "\n// Correct by Design, Verified by Construction\n\n"
  | .sparkAda, tid =>
    "-- SPARK/Ada Generated Code - Formally Verifiable (v0.1.5-alpha)\n-- Use GNATprove for mathematical verification: `gnatprove -P<project> --level=4`\n-- Patent Application: 63/928,407\n-- Traceability ID: "
      ++ tid ++ "\n-- Correct by Design, Verified by Construction\n"
  | .zig, tid =>
    "// Zig Generated Code - Memory Safe Systems Programming (v0.1.5-alpha)\n// Compile-time verification via comptime blocks\n// Patent Application: 63/928,407\n// Traceability ID: "
      ++ tid ++ "\n// Correct by Design, Verified by Construction\n"
  | .elixir, tid =>
    "# Elixir Generated Code - Fault-Tolerant Distributed Logic (v0.1.5-alpha)\n# Patent Application: 63/928,407\n# Traceability ID: "
      ++ tid ++ "\n# Correct by Design, Verified by Construction\n\n"

/-- The seven `VerifiableStrategy::emit_postcondition` implementations
(none inspects the schema argument). -/
def emit_postcondition (lang : TargetLanguage) (expression : String)
    (_schema : Schema) : String :=
  match lang with
  | .rust =>
    "/// Post-condition: The function returns true iff the expression evaluates to true: "
      ++ expression
  | .typeScript => "// Post-condition: Returns true iff (" ++ expression ++ ")"
  | .python => "# Post-condition: Returns True iff (" ++ expression ++ ")"
  | .solidity => "// Post-condition: Validated iff (" ++ expression ++ ")"
  | .sparkAda =>
    "Post => (validate_intent\x27Result = (" ++ expression ++ "))"
  | .zig => "// Verified Post-condition: " ++ expression
  | .elixir => "# Post-condition: Returns true iff (" ++ expression ++ ")"

/-- The seven `VerifiableStrategy::fn_end` values. -/
def fn_end : TargetLanguage → String
  | .rust => "\x7d"
  | .typeScript => "\x7d"
  | .python => ""
  | .solidity => "\x7d"
  | .sparkAda => ";"
  | .zig => "\x7d"
  | .elixir => "end"

/-- `CodeGenerator::generate_with_schema`.  The Rust function returns
`Result` but its only exit is `Ok`; the output struct is modelled
directly.  Each branch replicates the `format!` template of the matching
target. -/
def generate_with_schema (compound : CompoundConstraint) (schema : Schema)
    (lang : TargetLanguage) : CodegenOutput :=
  let logic_expr := build_expression lang compound
  let signature := build_signature lang "validate_intent" schema
  let postcondition := emit_postcondition lang logic_expr schema
  let header := license_header lang schema.traceability_id
  let assertions := build_assertions lang compound
  let code :=
    header ++
      match lang with
      | .sparkAda =>
        let contracts := (emit_contracts_spark compound).getD ""
        signature ++ "\n   with " ++ contracts ++ "\n" ++
          postcondition ++ "\nis\nbegin\n    " ++ assertions ++
          "\n    return " ++ logic_expr ++ "\n" ++ fn_end .sparkAda
      | .zig =>
        signature ++ "\n" ++ postcondition ++ "\n    " ++
          assertions ++ "\n    return " ++ logic_expr ++ "\n" ++ fn_end .zig
      | .rust =>
        signature ++ "\n" ++ postcondition ++
          "\nimpl Validator \x7b \n    pub fn validate_intent(&self, params: &ValidationParams) -> bool \x7b \n        "
          ++ assertions ++ "\n        " ++ logic_expr ++ "\n    \x7d\n\x7d"
      | .solidity =>
        "\ncontract Validator \x7b \n    " ++ signature ++
          "\n    " ++ postcondition ++ "\n    " ++ assertions ++
          "\n        return " ++ logic_expr ++ "\n    \x7d\n\x7d"
      | .python =>
        signature ++
          "\n\nclass Validator:\n    @staticmethod\n    def validate_intent(params) -> bool:\n        "
          ++ postcondition ++ "\n        " ++ assertions ++
          "\n        return " ++ logic_expr
      | .typeScript =>
        signature ++
          "\n\nexport class Validator \x7b \n    static validate_intent(params: any): boolean \x7b \n        "
          ++ postcondition ++ "\n        " ++ assertions ++
          "\n        return " ++ logic_expr ++ "\n    \x7d\n\x7d"
      | .elixir =>
        signature ++ "\n\ndefmodule Validator do\n    " ++
          postcondition ++ "\n    def validate_intent?(params) do\n        " ++
          assertions ++ "\n        " ++ logic_expr ++ "\n        " ++
          fn_end .elixir ++ "\n    end\nend"
  { language := lang, code := code,
    constraints_count := compound.count_constraints }

/-- ContainsSub s sub holds when sub occurs verbatim as a contiguous
substring of s. -/
def ContainsSub (s sub : String) : Prop :=
  ∃ p q, s = p ++ sub ++ q

/-! ## Theorems -/

mutual

theorem count_constraints_eq_length :
    ∀ c : CompoundConstraint,
      c.count_constraints = (postorderSimples c).length
  | .and cs => by
    rw [CompoundConstraint.count_constraints, postorderSimples]
    exact countConstraintsList_eq_length cs
  | .or cs => by
    rw [CompoundConstraint.count_constraints, postorderSimples]
    exact countConstraintsList_eq_length cs
  | .not c => by
    rw [CompoundConstraint.count_constraints, postorderSimples]
    exact count_constraints_eq_length c
  | .simple c => rfl

theorem countConstraintsList_eq_length :
    ∀ cs : List CompoundConstraint,
      countConstraintsList cs = (postorderSimplesList cs).length
  | [] => rfl
  | c :: rest => by
    rw [countConstraintsList, postorderSimplesList, List.length_append,
      count_constraints_eq_length c, countConstraintsList_eq_length rest]

end

/-- C2: for every compound constraint tree, `count_constraints` equals the
number of `Simple` leaves, i.e. the length of the post-order enumeration of
the `Simple` nodes. -/
theorem count_constraints_counts_simple_leaves (c : CompoundConstraint) :
    c.count_constraints = (postorderSimples c).length :=
  count_constraints_eq_length c

/-- C4 counterexample: the compound translation does not reject an empty
`And`; at the concrete input `And []` it returns the formula `true`, not an
error. -/
theorem translate_compound_empty_and_is_ok :
    translate_compound (CompoundConstraint.and []) = Except.ok SmtBool.tru :=
  rfl

/-- C4 amended: the compound translation never rejects an empty `And` or
`Or` as malformed; it translates an empty `And` to the constant-true
formula and an empty `Or` to the constant-false formula. -/
theorem translate_compound_empty_defaults :
    translate_compound (CompoundConstraint.and []) = Except.ok SmtBool.tru ∧
      translate_compound (CompoundConstraint.or []) = Except.ok SmtBool.fls :=
  ⟨rfl, rfl⟩

/-- C9: the Ada-style target renders a variable as `Params.` followed by
the name with each underscore-separated segment capitalised and re-joined
with underscores; in particular `max_transfer_amount` becomes
`Max_Transfer_Amount`. -/
theorem spark_ada_variable_casing (name : String) :
    format_variable TargetLanguage.sparkAda name =
      "Params." ++
        String.intercalate "_" ((splitUnderscores name).map capitalizeWord) ∧
    format_variable TargetLanguage.sparkAda "max_transfer_amount" =
      "Params.Max_Transfer_Amount" :=
  ⟨rfl, by decide⟩

/-- C10: both string conversions build the constraint `s ≥ 0`: left
variable `s`, operator greater-than-or-equal, right value the literal
string `0`. -/
theorem constraint_from_string_conversions (s : String) :
    constraintFromStr s =
      { left_variable := s
        operator := ConstraintOperator.greaterThanOrEqual
        right_value := "0" } ∧
    constraintFromString s =
      { left_variable := s
        operator := ConstraintOperator.greaterThanOrEqual
        right_value := "0" } :=
  ⟨rfl, rfl⟩

/-- C3: over integer semantics, the translation of `Not(Simple{l, op, r})`
evaluates identically to the translation of `Simple{l, dual(op), r}` under
every assignment, where `dual` swaps `<` with `≥`, `>` with `≤` and `=`
with `≠`. -/
theorem translate_not_simple_dual (op : ConstraintOperator) (l r : String)
    (env : String → Int) :
    ∃ f g,
      translate_compound
          (CompoundConstraint.not (CompoundConstraint.simple
            { left_variable := l, operator := op, right_value := r })) =
        Except.ok f ∧
      translate_compound
          (CompoundConstraint.simple
            { left_variable := l, operator := dual op, right_value := r }) =
        Except.ok g ∧
      SmtBool.eval env f = SmtBool.eval env g := by
  refine ⟨SmtBool.not (translate_constraint
      { left_variable := l, operator := op, right_value := r }),
    translate_constraint
      { left_variable := l, operator := dual op, right_value := r },
    rfl, rfl, ?_⟩
  cases op <;>
      simp only [translate_constraint, dual, SmtBool.eval, Bool.not_not] <;>
    first
      | rfl
      | (rw [← decide_not]; exact decide_eq_decide.mpr (by omega))

/-- C1: on every `IntentAst` reachable through `new` followed by
`add_requirement` calls, the score is exactly `0` when the requirement list
is empty and `100` times the verified fraction otherwise (the score is only
written by `update_score`, which every mutating operation calls). -/
theorem correctness_score_invariant (a : IntentAst) (h : ReachableAst a) :
    (a.requirements = [] → a.correctness_score = 0) ∧
    (a.requirements ≠ [] →
      a.correctness_score =
        100 * ((a.requirements.filter (fun r => r.verified)).length : ℚ) /
          (a.requirements.length : ℚ)) := by
  induction h with
  | new id => exact ⟨fun _ => rfl, fun hne => absurd rfl hne⟩
  | add a reqId content _ _ =>
    constructor
    · intro hempty
      exfalso
      simp [IntentAst.add_requirement, IntentAst.update_score] at hempty
    · intro _
      have hne :
          (a.requirements ++
              [({ id := reqId, content := content, verified := false,
                  constraints := [] } : Requirement)]).isEmpty = false := by
        simp [List.isEmpty_iff]
      simp only [IntentAst.add_requirement, IntentAst.update_score, hne,
        Bool.false_eq_true, if_false]
      ring

/-- Witness for C1 at a concrete reachable state: one unverified
requirement gives score `100 * 0 / 1 = 0`. -/
theorem correctness_score_invariant_witness :
    ((IntentAst.new 0).add_requirement 1 "req").correctness_score =
      100 *
        (((((IntentAst.new 0).add_requirement 1 "req").requirements.filter
            (fun r => r.verified)).length : ℚ)) /
          ((((IntentAst.new 0).add_requirement 1 "req").requirements.length :
            ℚ)) := by
  have h :=
    (correctness_score_invariant _
        (ReachableAst.add _ 1 "req" (ReachableAst.new 0))).2
  exact h (by simp [IntentAst.add_requirement, IntentAst.update_score,
    IntentAst.new])

mutual

theorem collect_assertions_eq_leaves (lang : TargetLanguage) :
    ∀ c : CompoundConstraint,
      collect_assertions lang c =
        (postorderSimples c).map fun cst =>
          wrap_assertion lang
            (format_variable lang cst.left_variable ++ " " ++
              format_operator lang cst.operator ++ " " ++ cst.right_value)
  | .and cs => by
    rw [collect_assertions, postorderSimples]
    exact collectAssertionsList_eq_leaves lang cs
  | .or cs => by
    rw [collect_assertions, postorderSimples]
    exact collectAssertionsList_eq_leaves lang cs
  | .not c => by
    rw [collect_assertions, postorderSimples]
    exact collect_assertions_eq_leaves lang c
  | .simple c => rfl

theorem collectAssertionsList_eq_leaves (lang : TargetLanguage) :
    ∀ cs : List CompoundConstraint,
      collectAssertionsList lang cs =
        (postorderSimplesList cs).map fun cst =>
          wrap_assertion lang
            (format_variable lang cst.left_variable ++ " " ++
              format_operator lang cst.operator ++ " " ++ cst.right_value)
  | [] => rfl
  | c :: rest => by
    rw [collectAssertionsList, postorderSimplesList, List.map_append,
      collect_assertions_eq_leaves lang c,
      collectAssertionsList_eq_leaves lang rest]

end

/-- C8: for every target strategy, the assertion collector emits exactly
one wrapped assertion per `Simple` leaf in left-to-right depth-first order,
asserting the leaf condition itself even under a `Not` node. -/
theorem assertions_one_per_leaf (lang : TargetLanguage)
    (c : CompoundConstraint) :
    collect_assertions lang c =
      (postorderSimples c).map fun cst =>
        wrap_assertion lang
          (format_variable lang cst.left_variable ++ " " ++
            format_operator lang cst.operator ++ " " ++ cst.right_value) :=
  collect_assertions_eq_leaves lang c

/-- C7 evaluation: the Rust signature emitted from the same two fields
differs between two iteration orders of the backing map, so the emitted
field order is whatever order the `HashMap` yields, not insertion order. -/
theorem build_signature_depends_on_map_order :
    build_signature TargetLanguage.rust "validate_intent"
        { fields := [("b_total", DataType.int32), ("a_count", DataType.int32)],
          documentation := [], traceability_id := "run-1" } ≠
      build_signature TargetLanguage.rust "validate_intent"
        { fields := [("a_count", DataType.int32), ("b_total", DataType.int32)],
          documentation := [], traceability_id := "run-1" } := by
  decide

theorem containsSub_appendR (s t sub : String) (h : ContainsSub s sub) :
    ContainsSub (s ++ t) sub := by
  obtain ⟨p, q, rfl⟩ := h
  exact ⟨p, q ++ t, by rw [String.append_assoc]⟩

theorem containsSub_header (lang : TargetLanguage) (tid : String) :
    ContainsSub (license_header lang tid) tid := by
  cases lang <;> exact ⟨_, _, rfl⟩

/-- C6: for every compound constraint, schema and target language, the
code emitted by `generate_with_schema` contains the schema's traceability
id verbatim as a substring (it sits inside the license header, which opens
every per-target template). -/
theorem traceability_id_in_generated_code (compound : CompoundConstraint)
    (schema : Schema) (lang : TargetLanguage) :
    ContainsSub (generate_with_schema compound schema lang).code
      schema.traceability_id := by
  cases lang <;>
    exact containsSub_appendR _ _ _ (containsSub_header _ _)

theorem cmdCount_append (a b : List SmtCmd) (t : SmtCmd) :
    cmdCount (a ++ b) t = cmdCount a t + cmdCount b t := by
  simp [cmdCount, List.filter_append]

theorem declCount_append (a b : List SmtCmd) (v : String) :
    declCount (a ++ b) v = declCount a v + declCount b v :=
  cmdCount_append a b _

theorem declCount_single_decl (w v : String) :
    declCount [SmtCmd.declareConst w] v = if v = w then 1 else 0 := by
  by_cases h : v = w
  · subst h; simp [declCount, cmdCount]
  · simp [declCount, cmdCount, Ne.symm h, if_neg h]

theorem declCount_single_assert (o l r : String) (v : String) :
    declCount [SmtCmd.assertCmd o l r] v = 0 := by
  simp [declCount, cmdCount]

theorem renderCmds_append (a b : List SmtCmd) :
    renderCmds (a ++ b) = renderCmds a ++ renderCmds b := by
  induction a with
  | nil => simp [renderCmds]
  | cons c rest ih => simp [renderCmds, ih, String.append_assoc]

theorem assertsOf_append (a b : List SmtCmd) :
    assertsOf (a ++ b) = assertsOf a ++ assertsOf b := by
  simp [assertsOf, List.filterMap_append]

theorem declare_left_mem (c : Constraint) (d : List String) (v : String) :
    v ∈ (declare_left c d).2 ↔ v = c.left_variable ∨ v ∈ d := by
  by_cases h : c.left_variable ∈ d
  · simp only [declare_left, if_pos h]
    constructor
    · exact Or.inr
    · rintro (rfl | hv)
      · exact h
      · exact hv
  · simp [declare_left, if_neg h, List.mem_cons]

theorem declare_left_declCount (c : Constraint) (d : List String) (v : String) :
    declCount (declare_left c d).1 v =
      if v = c.left_variable ∧ v ∉ d then 1 else 0 := by
  by_cases h : c.left_variable ∈ d
  · simp only [declare_left, if_pos h]
    rw [if_neg]
    · rfl
    · rintro ⟨rfl, hv⟩
      exact hv h
  · simp only [declare_left, if_neg h, declCount_single_decl]
    by_cases hv : v = c.left_variable
    · subst hv
      rw [if_pos rfl, if_pos ⟨rfl, h⟩]
    · rw [if_neg hv, if_neg (fun hc => hv hc.1)]

theorem declare_right_mem (c : Constraint) (d : List String) (v : String) :
    v ∈ (declare_right c d).2 ↔
      (v = c.right_value ∧ (parseI64 v).isNone = true) ∨ v ∈ d := by
  by_cases hp : (parseI64 c.right_value).isNone = true
  · by_cases h : c.right_value ∈ d
    · simp only [declare_right, if_pos hp, if_pos h]
      constructor
      · exact Or.inr
      · rintro (⟨rfl, _⟩ | hv)
        · exact h
        · exact hv
    · simp only [declare_right, if_pos hp, if_neg h, List.mem_cons]
      constructor
      · rintro (rfl | hv)
        · exact Or.inl ⟨rfl, hp⟩
        · exact Or.inr hv
      · rintro (⟨rfl, _⟩ | hv)
        · exact Or.inl rfl
        · exact Or.inr hv
  · simp only [declare_right, if_neg hp]
    constructor
    · exact Or.inr
    · rintro (⟨rfl, hv⟩ | hv)
      · exact absurd hv hp
      · exact hv

theorem declare_right_declCount (c : Constraint) (d : List String) (v : String) :
    declCount (declare_right c d).1 v =
      if v = c.right_value ∧ (parseI64 v).isNone = true ∧ v ∉ d then 1
      else 0 := by
  by_cases hp : (parseI64 c.right_value).isNone = true
  · by_cases h : c.right_value ∈ d
    · simp only [declare_right, if_pos hp, if_pos h]
      rw [if_neg]
      · rfl
      · rintro ⟨rfl, _, hv⟩
        exact hv h
    · simp only [declare_right, if_pos hp, if_neg h, declCount_single_decl]
      by_cases hv : v = c.right_value
      · subst hv
        rw [if_pos rfl, if_pos ⟨rfl, hp, h⟩]
      · rw [if_neg hv, if_neg (fun hc => hv hc.1)]
  · simp only [declare_right, if_neg hp]
    rw [if_neg]
    · rfl
    · rintro ⟨rfl, hv, _⟩
      exact hp hv

theorem assertsOf_declare_left (c : Constraint) (d : List String) :
    assertsOf (declare_left c d).1 = [] := by
  unfold declare_left
  split_ifs <;> rfl

theorem assertsOf_declare_right (c : Constraint) (d : List String) :
    assertsOf (declare_right c d).1 = [] := by
  unfold declare_right
  split_ifs <;> rfl

theorem declare_left_shape (c : Constraint) (d : List String) :
    ∀ x ∈ (declare_left c d).1, ∃ w, x = SmtCmd.declareConst w := by
  unfold declare_left
  split_ifs <;> simp

theorem declare_right_shape (c : Constraint) (d : List String) :
    ∀ x ∈ (declare_right c d).1, ∃ w, x = SmtCmd.declareConst w := by
  unfold declare_right
  split_ifs <;> simp

theorem acs_shape (c : Constraint) (d : List String) :
    ∀ x ∈ (append_constraint_smt c d).1,
      (∃ w, x = SmtCmd.declareConst w) ∨
        ∃ o l r, x = SmtCmd.assertCmd o l r := by
  intro x hx
  simp only [append_constraint_smt] at hx
  rcases List.mem_append.1 hx with hx | hx
  · rcases List.mem_append.1 hx with hx | hx
    · exact Or.inl (declare_left_shape _ _ _ hx)
    · exact Or.inl (declare_right_shape _ _ _ hx)
  · simp only [List.mem_singleton] at hx
    subst hx
    exact Or.inr ⟨_, _, _, rfl⟩

theorem acs_asserts (c : Constraint) (d : List String) :
    assertsOf (append_constraint_smt c d).1 =
      [(smt_op_str c.operator, c.left_variable, c.right_value)] := by
  simp only [append_constraint_smt]
  rw [assertsOf_append, assertsOf_append, assertsOf_declare_left,
    assertsOf_declare_right]
  rfl

theorem acs_snd_mem (c : Constraint) (d : List String) (v : String) :
    v ∈ (append_constraint_smt c d).2 ↔
      v = c.left_variable ∨
        (v = c.right_value ∧ (parseI64 v).isNone = true) ∨ v ∈ d := by
  simp only [append_constraint_smt]
  rw [declare_right_mem, declare_left_mem]
  tauto

theorem acs_declCount (c : Constraint) (d : List String) (v : String) :
    declCount (append_constraint_smt c d).1 v =
      if (v = c.left_variable ∨
            (v = c.right_value ∧ (parseI64 v).isNone = true)) ∧ v ∉ d
      then 1 else 0 := by
  simp only [append_constraint_smt]
  rw [declCount_append, declCount_append, declare_left_declCount,
    declare_right_declCount, declCount_single_assert]
  have hmem := declare_left_mem c d v
  by_cases h1 : v = c.left_variable
  · by_cases h2 : v ∈ d
    · rw [if_neg (fun hc => hc.2 h2), if_neg (fun hc => hc.2.2 (hmem.2 (Or.inl h1))),
        if_neg (fun hc => hc.2 h2)]
    · rw [if_pos ⟨h1, h2⟩, if_neg (fun hc => hc.2.2 (hmem.2 (Or.inl h1))),
        if_pos ⟨Or.inl h1, h2⟩]
  · by_cases h2 : v ∈ d
    · rw [if_neg (fun hc => h1 hc.1), if_neg (fun hc => hc.2.2 (hmem.2 (Or.inr h2))),
        if_neg (fun hc => hc.2 h2)]
    · by_cases h3 : v = c.right_value ∧ (parseI64 v).isNone = true
      · rw [if_neg (fun hc => h1 hc.1),
          if_pos ⟨h3.1, h3.2, fun hv => (hmem.1 hv).elim h1 h2⟩,
          if_pos ⟨Or.inr h3, h2⟩]
      · rw [if_neg (fun hc => h1 hc.1), if_neg (fun hc => h3 ⟨hc.1, hc.2.1⟩),
          if_neg (fun hc => hc.1.elim h1 (fun hr => h3 hr))]

theorem smtBodyCmds_cons (c : Constraint) (rest : List Constraint)
    (d : List String) :
    smtBodyCmds (c :: rest) d =
      (append_constraint_smt c d).1 ++
        smtBodyCmds rest (append_constraint_smt c d).2 :=
  rfl

theorem needsDecl_cons (c : Constraint) (rest : List Constraint) (v : String) :
    NeedsDecl (c :: rest) v ↔
      (v = c.left_variable ∨
          (v = c.right_value ∧ (parseI64 v).isNone = true)) ∨
        NeedsDecl rest v := by
  unfold NeedsDecl
  constructor
  · rintro (⟨x, hx, hv⟩ | ⟨hn, x, hx, hv⟩)
    · rcases List.mem_cons.1 hx with rfl | hx
      · exact Or.inl (Or.inl hv)
      · exact Or.inr (Or.inl ⟨x, hx, hv⟩)
    · rcases List.mem_cons.1 hx with rfl | hx
      · exact Or.inl (Or.inr ⟨hv, hn⟩)
      · exact Or.inr (Or.inr ⟨hn, x, hx, hv⟩)
  · rintro ((hv | ⟨hv, hn⟩) | (⟨x, hx, hv⟩ | ⟨hn, x, hx, hv⟩))
    · exact Or.inl ⟨c, List.mem_cons_self c rest, hv⟩
    · exact Or.inr ⟨hn, c, List.mem_cons_self c rest, hv⟩
    · exact Or.inl ⟨x, List.mem_cons_of_mem c hx, hv⟩
    · exact Or.inr ⟨hn, x, List.mem_cons_of_mem c hx, hv⟩

theorem smtBody_declCount (cs : List Constraint) (v : String) :
    ∀ d, declCount (smtBodyCmds cs d) v =
      if NeedsDecl cs v ∧ v ∉ d then 1 else 0 := by
  induction cs with
  | nil =>
    intro d
    rw [if_neg]
    · rfl
    · rintro ⟨hnd, _⟩
      rcases hnd with ⟨c, hc, _⟩ | ⟨_, c, hc, _⟩ <;>
        exact absurd hc (List.not_mem_nil c)
  | cons c rest ih =>
    intro d
    rw [smtBodyCmds_cons, declCount_append, acs_declCount, ih]
    have hmem := acs_snd_mem c d v
    by_cases hP :
        v = c.left_variable ∨ (v = c.right_value ∧ (parseI64 v).isNone = true)
    · have hv2 : v ∈ (append_constraint_smt c d).2 :=
        hmem.2 (hP.elim Or.inl fun h => Or.inr (Or.inl h))
      by_cases hd : v ∈ d
      · rw [if_neg (fun hc => hc.2 hd), if_neg (fun hc => hc.2 hv2),
          if_neg (fun hc => hc.2 hd)]
      · rw [if_pos ⟨hP, hd⟩, if_neg (fun hc => hc.2 hv2),
          if_pos ⟨(needsDecl_cons c rest v).2 (Or.inl hP), hd⟩]
    · have hacs : v ∈ (append_constraint_smt c d).2 ↔ v ∈ d := by
        rw [hmem]; tauto
      by_cases hd : v ∈ d
      · rw [if_neg (fun hc => hc.2 hd), if_neg (fun hc => hc.2 (hacs.2 hd)),
          if_neg (fun hc => hc.2 hd)]
      · by_cases hR : NeedsDecl rest v
        · rw [if_neg (fun hc => hP hc.1),
            if_pos ⟨hR, fun hv => hd (hacs.1 hv)⟩,
            if_pos ⟨(needsDecl_cons c rest v).2 (Or.inr hR), hd⟩]
        · rw [if_neg (fun hc => hP hc.1), if_neg (fun hc => hR hc.1),
            if_neg (fun hc => ((needsDecl_cons c rest v).1 hc.1).elim hP hR)]

theorem smtBody_asserts (cs : List Constraint) :
    ∀ d, assertsOf (smtBodyCmds cs d) =
      cs.map fun c => (smt_op_str c.operator, c.left_variable, c.right_value) := by
  induction cs with
  | nil => intro d; rfl
  | cons c rest ih =>
    intro d
    rw [smtBodyCmds_cons, assertsOf_append, acs_asserts, ih]
    rfl

theorem smtBody_shape (cs : List Constraint) :
    ∀ d, ∀ x ∈ smtBodyCmds cs d,
      (∃ w, x = SmtCmd.declareConst w) ∨
        ∃ o l r, x = SmtCmd.assertCmd o l r := by
  induction cs with
  | nil => intro d x hx; exact absurd hx (List.not_mem_nil x)
  | cons c rest ih =>
    intro d x hx
    rw [smtBodyCmds_cons] at hx
    rcases List.mem_append.1 hx with hx | hx
    · exact acs_shape c d x hx
    · exact ih _ x hx

theorem cmdCount_zero (l : List SmtCmd) (t : SmtCmd) (h : ∀ x ∈ l, x ≠ t) :
    cmdCount l t = 0 := by
  induction l with
  | nil => rfl
  | cons c rest ih =>
    have hc : ¬(c = t) := h c (List.mem_cons_self c rest)
    have hstep : cmdCount (c :: rest) t = cmdCount rest t := by
      simp [cmdCount, List.filter_cons, hc]
    rw [hstep]
    exact ih fun x hx => h x (List.mem_cons_of_mem c hx)

theorem smtBody_cmdCount_checkSat (cs : List Constraint) (d : List String) :
    cmdCount (smtBodyCmds cs d) SmtCmd.checkSat = 0 := by
  refine cmdCount_zero _ _ fun x hx => ?_
  rcases smtBody_shape cs d x hx with ⟨w, rfl⟩ | ⟨o, l, r, rfl⟩ <;> simp

theorem smtBody_cmdCount_getModel (cs : List Constraint) (d : List String) :
    cmdCount (smtBodyCmds cs d) SmtCmd.getModel = 0 := by
  refine cmdCount_zero _ _ fun x hx => ?_
  rcases smtBody_shape cs d x hx with ⟨w, rfl⟩ | ⟨o, l, r, rfl⟩ <;> simp

/-- C5 counterexample: at the concrete input `[x ≥ 0; y ≥ 0]` the printer
emits declare `x`, assert `x`, declare `y`, assert `y` — the declaration
of `y` comes after the assert for `x`, so the declare-const lines do not
all precede the assert lines as the claim requires. -/
theorem generate_smt_lib_interleaves_declarations :
    generate_smt_cmds
        [{ left_variable := "x",
           operator := ConstraintOperator.greaterThanOrEqual,
           right_value := "0" },
         { left_variable := "y",
           operator := ConstraintOperator.greaterThanOrEqual,
           right_value := "0" }] =
      [SmtCmd.setLogic, SmtCmd.setOption, SmtCmd.blank,
        SmtCmd.declareConst "x", SmtCmd.assertCmd ">=" "x" "0",
        SmtCmd.declareConst "y", SmtCmd.assertCmd ">=" "y" "0",
        SmtCmd.blank, SmtCmd.checkSat, SmtCmd.getModel] ∧
    declsPrecedeAsserts
        (generate_smt_cmds
          [{ left_variable := "x",
             operator := ConstraintOperator.greaterThanOrEqual,
             right_value := "0" },
           { left_variable := "y",
             operator := ConstraintOperator.greaterThanOrEqual,
             right_value := "0" }]) = false := by
  constructor <;> rfl

/-- C5 amended: the SMT-LIB diagnostic output starts with
`set-logic QF_LIA`, declares each needed variable (every left variable,
and every right value that does not parse as a signed 64-bit integer
literal) as `Int` exactly once, emits exactly one assert per constraint in
input order with the operator spelling table, and ends with one
`check-sat` followed by one `get-model`; the declarations are emitted per
constraint and are not guaranteed to precede the asserts. -/
theorem generate_smt_lib_structure (cs : List Constraint) :
    (∃ rest, generate_smt_lib cs = "(set-logic QF_LIA)" ++ rest) ∧
    (∀ v, declCount (generate_smt_cmds cs) v =
      if NeedsDecl cs v then 1 else 0) ∧
    assertsOf (generate_smt_cmds cs) =
      (cs.map fun c =>
        (smt_op_str c.operator, c.left_variable, c.right_value)) ∧
    cmdCount (generate_smt_cmds cs) SmtCmd.checkSat = 1 ∧
    cmdCount (generate_smt_cmds cs) SmtCmd.getModel = 1 ∧
    ∃ pre, generate_smt_lib cs = pre ++ "(check-sat)\n(get-model)\n" := by
  refine ⟨?_, ?_, ?_, ?_, ?_, ?_⟩
  · exact ⟨"\n" ++
      renderCmds (([SmtCmd.setOption, SmtCmd.blank] ++ smtBodyCmds cs []) ++
        [SmtCmd.blank, SmtCmd.checkSat, SmtCmd.getModel]), rfl⟩
  · intro v
    simp only [generate_smt_cmds]
    rw [declCount_append, declCount_append, smtBody_declCount cs v []]
    have hH : declCount [SmtCmd.setLogic, SmtCmd.setOption, SmtCmd.blank] v = 0 :=
      rfl
    have hF : declCount [SmtCmd.blank, SmtCmd.checkSat, SmtCmd.getModel] v = 0 :=
      rfl
    rw [hH, hF]
    simp
  · simp only [generate_smt_cmds]
    rw [assertsOf_append, assertsOf_append, smtBody_asserts cs []]
    simp [assertsOf]
  · simp only [generate_smt_cmds]
    rw [cmdCount_append, cmdCount_append, smtBody_cmdCount_checkSat]
    rfl
  · simp only [generate_smt_cmds]
    rw [cmdCount_append, cmdCount_append, smtBody_cmdCount_getModel]
    rfl
  · refine ⟨renderCmds
        ([SmtCmd.setLogic, SmtCmd.setOption, SmtCmd.blank] ++
          smtBodyCmds cs []) ++ "\n", ?_⟩
    simp only [generate_smt_lib, generate_smt_cmds]
    rw [renderCmds_append, String.append_assoc]
    congr 1

end Crucible
